import Mathlib

/-!
# Verification of the session-manager registry (vpatel95/session-manager)

A shallow embedding of `session.go` into Lean 4.

Go maps (`map[interface{}]interface{}` for session data, `map[string]*Session`
for the registry table) are embedded as association lists whose keys are unique
(`Nodup` on the key list) — the invariant every Go map enjoys.  `alLookup`,
`alInsert` and `alErase` mirror Go map indexing, assignment and `delete`.

`time.Time` instants and `time.Duration` values are embedded as `Int`
(nanoseconds); `time.Now()` becomes an explicit `now : Int` argument.  Go's
`nil` interface value stored in a session's data map becomes `Option.none`,
so a stored value has type `Option V`.  A Go `error` result is `Err :=
Option String` (`none` = the nil error).

Concurrency (the `sync.RWMutex` fields, the `go sm.SessionUpdate(sid)`
fire-and-forget dispatch and the `time.AfterFunc` rescheduling of the
cleaner) is outside the sequential model: each operation is embedded as the
state transformation it performs when it runs alone, which is what the
specification's per-operation claims describe.
-/

/-- A Go error value: `none` is the nil error, `some msg` a non-nil error. -/
abbrev Err : Type := Option String

/-- Go map indexing `v, ok := m[k]`: the value at the first binding of `k`,
if any.  On a `Nodup`-keyed list this is exactly Go map lookup. -/
def alLookup {α β : Type} [DecidableEq α] : List (α × β) → α → Option β
  | [], _ => none
  | (k', v') :: rest, k => if k' = k then some v' else alLookup rest k

/-- Go map assignment `m[k] = v`: replace the binding of `k` if present,
otherwise append a new binding. -/
def alInsert {α β : Type} [DecidableEq α] : List (α × β) → α → β → List (α × β)
  | [], k, v => [(k, v)]
  | (k', v') :: rest, k, v =>
      if k' = k then (k, v) :: rest else (k', v') :: alInsert rest k v

/-- Go `delete(m, k)`: drop the binding of `k` if present. -/
def alErase {α β : Type} [DecidableEq α] : List (α × β) → α → List (α × β)
  | [], _ => []
  | (k', v') :: rest, k => if k' = k then rest else (k', v') :: alErase rest k

/-- The key list of an association list. -/
def alKeys {α β : Type} (l : List (α × β)) : List α := l.map Prod.fst

theorem alLookup_eq_none_of_not_mem {α β : Type} [DecidableEq α]
    {l : List (α × β)} {k : α} (h : k ∉ alKeys l) : alLookup l k = none := by
  induction l with
  | nil => rfl
  | cons hd tl ih =>
      obtain ⟨k', v'⟩ := hd
      simp only [alKeys, List.map_cons, List.mem_cons] at h
      push_neg at h
      have h1 : k' ≠ k := Ne.symm h.1
      simp only [alLookup, if_neg h1]
      exact ih (by simpa [alKeys] using h.2)

theorem mem_alKeys_of_alLookup {α β : Type} [DecidableEq α]
    {l : List (α × β)} {k : α} {v : β} (h : alLookup l k = some v) :
    k ∈ alKeys l := by
  by_contra hk
  rw [alLookup_eq_none_of_not_mem hk] at h
  exact Option.noConfusion h

theorem alLookup_alInsert_self {α β : Type} [DecidableEq α]
    (l : List (α × β)) (k : α) (v : β) :
    alLookup (alInsert l k v) k = some v := by
  induction l with
  | nil => simp [alInsert, alLookup]
  | cons hd tl ih =>
      obtain ⟨k', v'⟩ := hd
      by_cases h : k' = k
      · simp [alInsert, alLookup, h]
      · simp [alInsert, alLookup, h, ih]

theorem alLookup_alInsert_ne {α β : Type} [DecidableEq α]
    (l : List (α × β)) {k k2 : α} (v : β) (h : k2 ≠ k) :
    alLookup (alInsert l k v) k2 = alLookup l k2 := by
  induction l with
  | nil =>
      simp only [alInsert, alLookup]
      rw [if_neg (Ne.symm h)]
  | cons hd tl ih =>
      obtain ⟨k', v'⟩ := hd
      by_cases hk : k' = k
      · subst hk
        simp only [alInsert, eq_self_iff_true, if_true, alLookup]
        rw [if_neg (Ne.symm h), if_neg (Ne.symm h)]
      · by_cases hk2 : k' = k2
        · simp only [alInsert, if_neg hk, alLookup, if_pos hk2]
        · simp only [alInsert, if_neg hk, alLookup, if_neg hk2]
          exact ih

theorem alLookup_alErase_ne {α β : Type} [DecidableEq α]
    (l : List (α × β)) {k k2 : α} (h : k2 ≠ k) :
    alLookup (alErase l k) k2 = alLookup l k2 := by
  induction l with
  | nil => rfl
  | cons hd tl ih =>
      obtain ⟨k', v'⟩ := hd
      by_cases hk : k' = k
      · subst hk
        simp only [alErase, eq_self_iff_true, if_true, alLookup]
        rw [if_neg (Ne.symm h)]
      · by_cases hk2 : k' = k2
        · simp only [alErase, if_neg hk, alLookup, if_pos hk2]
        · simp only [alErase, if_neg hk, alLookup, if_neg hk2]
          exact ih

theorem mem_alKeys_alInsert {α β : Type} [DecidableEq α]
    {l : List (α × β)} {k a : α} {v : β} :
    a ∈ alKeys (alInsert l k v) ↔ a ∈ alKeys l ∨ a = k := by
  induction l with
  | nil => simp [alInsert, alKeys]
  | cons hd tl ih =>
      obtain ⟨k', v'⟩ := hd
      by_cases h : k' = k
      · subst h
        simp only [alInsert, eq_self_iff_true, if_true, alKeys, List.map_cons, List.mem_cons]
        tauto
      · simp only [alInsert, if_neg h, alKeys, List.map_cons, List.mem_cons]
        simp only [alKeys] at ih
        tauto

theorem alKeys_alInsert_nodup {α β : Type} [DecidableEq α]
    {l : List (α × β)} {k : α} {v : β} (h : (alKeys l).Nodup) :
    (alKeys (alInsert l k v)).Nodup := by
  induction l with
  | nil => simp [alInsert, alKeys]
  | cons hd tl ih =>
      obtain ⟨k', v'⟩ := hd
      have h' : k' ∉ alKeys tl ∧ (alKeys tl).Nodup := by
        simpa [alKeys, List.nodup_cons] using h
      by_cases hk : k' = k
      · subst hk
        simp only [alInsert, eq_self_iff_true, if_true, alKeys, List.map_cons, List.nodup_cons]
        exact ⟨h'.1, h'.2⟩
      · simp only [alInsert, if_neg hk, alKeys, List.map_cons, List.nodup_cons]
        constructor
        · intro hmem
          rcases mem_alKeys_alInsert.mp hmem with hm | hm
          · exact h'.1 hm
          · exact hk hm
        · exact ih h'.2

theorem alLookup_alErase_self {α β : Type} [DecidableEq α]
    {l : List (α × β)} {k : α} (h : (alKeys l).Nodup) :
    alLookup (alErase l k) k = none := by
  induction l with
  | nil => rfl
  | cons hd tl ih =>
      obtain ⟨k', v'⟩ := hd
      have h' : k' ∉ alKeys tl ∧ (alKeys tl).Nodup := by
        simpa [alKeys, List.nodup_cons] using h
      by_cases hk : k' = k
      · subst hk
        simp only [alErase, eq_self_iff_true, if_true]
        exact alLookup_eq_none_of_not_mem h'.1
      · simp only [alErase, if_neg hk, alLookup, if_neg hk]
        exact ih h'.2

theorem alErase_of_not_mem {α β : Type} [DecidableEq α]
    {l : List (α × β)} {k : α} (h : alLookup l k = none) : alErase l k = l := by
  induction l with
  | nil => rfl
  | cons hd tl ih =>
      obtain ⟨k', v'⟩ := hd
      simp only [alLookup] at h
      by_cases hk : k' = k
      · rw [if_pos hk] at h
        exact Option.noConfusion h
      · rw [if_neg hk] at h
        simp only [alErase, if_neg hk]
        rw [ih h]

theorem alKeys_filter_subset {α β : Type} {l : List (α × β)} {a : α}
    {p : α × β → Bool} (h : a ∈ alKeys (l.filter p)) : a ∈ alKeys l := by
  simp only [alKeys, List.mem_map] at h ⊢
  obtain ⟨x, hx, hxk⟩ := h
  exact ⟨x, List.mem_of_mem_filter hx, hxk⟩

theorem alLookup_filter {α β : Type} [DecidableEq α]
    {l : List (α × β)} {k : α} {v : β} (p : α × β → Bool)
    (hnd : (alKeys l).Nodup) (h : alLookup l k = some v) :
    alLookup (l.filter p) k = if p (k, v) then some v else none := by
  induction l with
  | nil => exact Option.noConfusion h
  | cons hd tl ih =>
      obtain ⟨k', v'⟩ := hd
      have hnd' : k' ∉ alKeys tl ∧ (alKeys tl).Nodup := by
        simpa [alKeys, List.nodup_cons] using hnd
      simp only [alLookup] at h
      by_cases hk : k' = k
      · subst hk
        simp only [eq_self_iff_true, if_true] at h
        have hv : v' = v := Option.some.inj h
        subst hv
        have htl : alLookup (tl.filter p) k' = none :=
          alLookup_eq_none_of_not_mem (fun hmem => hnd'.1 (alKeys_filter_subset hmem))
        simp only [List.filter_cons]
        by_cases hp : p (k', v') = true
        · rw [if_pos hp, if_pos hp]
          simp only [alLookup, eq_self_iff_true, if_true]
        · rw [if_neg hp, if_neg hp, htl]
      · rw [if_neg hk] at h
        simp only [List.filter_cons]
        by_cases hp : p (k', v') = true
        · rw [if_pos hp]
          simp only [alLookup, if_neg hk]
          exact ih hnd'.2 h
        · rw [if_neg hp]
          exact ih hnd'.2 h

/-! ## The `Session` type (src/session.go, `type Session struct`)

`sd` embeds the Go `dict = map[interface{}]interface{}`: keys of an arbitrary
comparable type `K`, values `Option V` (`none` is a stored Go `nil`).
The `sync.RWMutex` field is concurrency plumbing and has no sequential
content. -/

structure Session (K V : Type) where
  sessionId : String
  lastAccessed : Int
  sd : List (K × Option V)
  deriving DecidableEq

/-- `func (s *Session) Get(key interface{}) interface{}`:
the stored value when the key is present, Go `nil` (here `none`) otherwise. -/
def Session.Get {K V : Type} [DecidableEq K] (s : Session K V) (key : K) : Option V :=
  match alLookup s.sd key with
  | some val => val
  | none => none

/-- `func (s *Session) Exist(key interface{}) bool`. -/
def Session.Exist {K V : Type} [DecidableEq K] (s : Session K V) (key : K) : Bool :=
  match alLookup s.sd key with
  | some _ => true
  | none => false

/-- `func (s *Session) Set(key, sd interface{}) error`: stores the value
(mutating `s` in place in Go; here returning the updated record) and returns
the nil error. -/
def Session.Set {K V : Type} [DecidableEq K] (s : Session K V) (key : K)
    (sd : Option V) : Session K V × Err :=
  ({ s with sd := alInsert s.sd key sd }, none)

/-- `func (s *Session) Delete(key interface{}) error`: removes the key and
returns the nil error. -/
def Session.Delete {K V : Type} [DecidableEq K] (s : Session K V) (key : K) :
    Session K V × Err :=
  ({ s with sd := alErase s.sd key }, none)

/-- Well-formedness of a session's data map: Go map keys are unique. -/
def Session.WF {K V : Type} (s : Session K V) : Prop := (alKeys s.sd).Nodup

instance {K V : Type} [DecidableEq K] (s : Session K V) : Decidable s.WF := by
  unfold Session.WF
  infer_instance

/-! ## The registry (src/session.go, `type SessionManager struct`)

The `sessions` field embeds the Go `sessDict = map[string]*Session`.  Go
stores `*Session` pointers; every pointer is reachable from the table at
exactly one key (the only transient aliasing, inside `SessionRefresh`, is
resolved before the lock is released), so updates performed through a
pointer are embedded as in-place updates of the table entry and the table
carries session values.  The `list` field of the first revision is written
but never read; it is omitted. -/

structure SessionCookie where
  Name : String
  Domain : String
  HTTPOnly : Bool
  Secure : Bool
  Lifetime : Int
  deriving DecidableEq

structure SessionManagerConfig where
  CleanerInterval : Int
  MaxLifetime : Int
  CookieLifetime : Int
  EnableHttpHeader : Bool
  SessionHeader : String
  AutoRefreshSession : Bool
  deriving DecidableEq

structure SessionManager (K V : Type) where
  sessions : List (String × Session K V)
  Config : SessionManagerConfig
  Cookie : SessionCookie
  deriving DecidableEq

/-- Well-formedness: the registry table is a Go map, so its keys are unique. -/
def SessionManager.WF {K V : Type} (sm : SessionManager K V) : Prop :=
  (alKeys sm.sessions).Nodup

instance {K V : Type} (sm : SessionManager K V) : Decidable sm.WF := by
  unfold SessionManager.WF
  infer_instance

/-- `func New() *SessionManager`: empty table and the default configuration
(durations in nanoseconds, as Go's `time.Duration` counts them).  The
`go sm.GlobalCleaner()` launch is the background task, outside the
sequential model. -/
def New (K V : Type) : SessionManager K V :=
  { sessions := []
  , Config :=
      { CleanerInterval := 60 * 1000000000
      , MaxLifetime := 24 * 3600 * 1000000000
      , CookieLifetime := 0
      , EnableHttpHeader := false
      , SessionHeader := ""
      , AutoRefreshSession := false }
  , Cookie :=
      { Name := "sessionid"
      , Domain := ""
      , HTTPOnly := true
      , Secure := false
      , Lifetime := 24 * 3600 * 1000000000 } }

/-- `func (sm *SessionManager) SessionExist(sid string) bool`. -/
def SessionManager.SessionExist {K V : Type} (sm : SessionManager K V)
    (sid : String) : Bool :=
  match alLookup sm.sessions sid with
  | some _ => true
  | none => false

/-- `func (sm *SessionManager) SessionCount() int`. -/
def SessionManager.SessionCount {K V : Type} (sm : SessionManager K V) : Nat :=
  sm.sessions.length

/-- `func (sm *SessionManager) SessionCreate(sid string) (*Session, error)`:
unconditionally stores a fresh session (empty data, `lastAccessed = now`)
at `sid` and returns it with the nil error.  There is no check on `sid`. -/
def SessionManager.SessionCreate {K V : Type} (sm : SessionManager K V)
    (sid : String) (now : Int) : SessionManager K V × Session K V × Err :=
  let s : Session K V := { sessionId := sid, lastAccessed := now, sd := [] }
  ({ sm with sessions := alInsert sm.sessions sid s }, s, none)

/-- `func (sm *SessionManager) SessionRefresh(oldSid, sid string) (*Session, error)`:
if `oldSid` is bound to `s`, the code sets `s.sessionId = sid`, stores the
record at key `sid`, and then `delete(sm.sessions, oldSid)` — in that order,
so when `oldSid = sid` the delete removes the record just stored.  If
`oldSid` is unbound, a fresh empty session is stored at `sid`.  Both paths
return the nil error. -/
def SessionManager.SessionRefresh {K V : Type} (sm : SessionManager K V)
    (oldSid sid : String) (now : Int) :
    SessionManager K V × Session K V × Err :=
  match alLookup sm.sessions oldSid with
  | some s =>
      let s2 : Session K V := { s with sessionId := sid }
      ({ sm with sessions := alErase (alInsert sm.sessions sid s2) oldSid },
        s2, none)
  | none =>
      let newSess : Session K V :=
        { sessionId := sid, lastAccessed := now, sd := [] }
      ({ sm with sessions := alInsert sm.sessions sid newSess }, newSess, none)

/-- `func (sm *SessionManager) SessionUpdate(sid string) error`: bumps
`lastAccessed` of the session bound to `sid` (through its pointer, i.e. in
the table) and returns nil; unbound `sid` returns a non-nil error and
nothing changes. -/
def SessionManager.SessionUpdate {K V : Type} (sm : SessionManager K V)
    (sid : String) (now : Int) : SessionManager K V × Err :=
  match alLookup sm.sessions sid with
  | some s =>
      ({ sm with
          sessions := alInsert sm.sessions sid { s with lastAccessed := now } },
        none)
  | none => (sm, some "error while updating session")

/-- `func (sm *SessionManager) SessionDestroy(sid string) error`: deletes the
binding of `sid` when present (nil error), otherwise returns a non-nil
error leaving the table untouched. -/
def SessionManager.SessionDestroy {K V : Type} (sm : SessionManager K V)
    (sid : String) : SessionManager K V × Err :=
  match alLookup sm.sessions sid with
  | some _ => ({ sm with sessions := alErase sm.sessions sid }, none)
  | none => (sm, some "error while deleting session")

/-- `func (sm *SessionManager) GlobalCleaner()`: one sweep.  The loop deletes
every entry `s` with `time.Now().After(s.lastAccessed.Add(sm.Config.MaxLifetime))`,
i.e. `now > lastAccessed + MaxLifetime`; surviving entries are untouched.
The per-entry re-reading of `time.Now()` is collapsed to the single instant
`now`; the `s == nil` skip is vacuous here because the registry never stores
a nil session; the `time.AfterFunc` self-rescheduling is the background
task, outside the sequential model.  The function returns no error. -/
def SessionManager.GlobalCleaner {K V : Type} (sm : SessionManager K V)
    (now : Int) : SessionManager K V :=
  { sm with
      sessions := sm.sessions.filter
        (fun kv => ! decide (kv.2.lastAccessed + sm.Config.MaxLifetime < now)) }

/-! ## Requests and identifier extraction (src/session.go, `GetSessionId`)

A request is embedded by the two things the code reads from it:
`r.Cookie(name)` — the first cookie with that name, with the error
`http.ErrNoCookie` exactly when there is none (net/http keeps cookies whose
value is the empty string, so a present empty-valued cookie yields a nil
error) — and `r.Header[key]`, a plain map lookup on the exact key.
`url.QueryUnescape` is embedded character-for-byte: `%xx` escapes must have
two hex digits (otherwise the escape error), `+` decodes to a space, and
every other character is passed through. -/

structure Request where
  cookies : List (String × String)
  header : List (String × List String)
  deriving DecidableEq

/-- `r.Cookie(name)`: `some value` plus nil error, or `none` standing for the
`http.ErrNoCookie` failure. -/
def Request.cookie (r : Request) (name : String) : Option String :=
  alLookup r.cookies name

/-- `r.Header[key]`: exact-key map lookup. -/
def Request.headerValues (r : Request) (key : String) : Option (List String) :=
  alLookup r.header key

/-- The numeric value of a hex digit, `none` on a non-hex character
(`ishex`/`unhex` in net/url). -/
def hexDigitVal (c : Char) : Option Nat :=
  if '0' ≤ c ∧ c ≤ '9' then some (c.toNat - '0'.toNat)
  else if 'a' ≤ c ∧ c ≤ 'f' then some (c.toNat - 'a'.toNat + 10)
  else if 'A' ≤ c ∧ c ≤ 'F' then some (c.toNat - 'A'.toNat + 10)
  else none

/-- The core of `url.QueryUnescape`: `none` is the `EscapeError` on a `%`
not followed by two hex digits. -/
def unescapeChars : List Char → Option (List Char)
  | [] => some []
  | '%' :: rest =>
      match rest with
      | a :: b :: rest2 =>
          match hexDigitVal a, hexDigitVal b with
          | some ha, some hb =>
              (unescapeChars rest2).map
                (fun t => Char.ofNat (16 * ha + hb) :: t)
          | _, _ => none
      | _ => none
  | '+' :: rest => (unescapeChars rest).map (fun t => ' ' :: t)
  | c :: rest => (unescapeChars rest).map (fun t => c :: t)

/-- `url.QueryUnescape(s)`: the decoded string with nil error, or the empty
string with the escape error. -/
def QueryUnescape (s : String) : String × Err :=
  match unescapeChars s.toList with
  | some cs => (String.mk cs, none)
  | none => ("", some "invalid URL escape")

/-- `func (sm *SessionManager) GetSessionId(r *http.Request) (string, error)`:
`cookie, err := r.Cookie(name)`; if `err != nil || cookie.Value == ""`, try
the header when enabled (`r.Header[sm.Config.SessionHeader]`, first value
of a non-empty list) and otherwise `return "", err` — `err` being nil when
the cookie was present with an empty value; otherwise
`return url.QueryUnescape(cookie.Value)`. -/
def SessionManager.GetSessionId {K V : Type} (sm : SessionManager K V)
    (r : Request) : String × Err :=
  let cookieRes := r.cookie sm.Cookie.Name
  let err : Err :=
    match cookieRes with
    | some _ => none
    | none => some "http: named cookie not present"
  let value := cookieRes.getD ""
  if Option.isSome err ∨ value = "" then
    if sm.Config.EnableHttpHeader then
      match r.headerValues sm.Config.SessionHeader with
      | some sids => if sids.length ≠ 0 then (sids.headD "", none) else ("", err)
      | none => ("", err)
    else ("", err)
  else
    QueryUnescape value

/-- `func (sm *SessionManager) GetSessionIdFromCookie(r *http.Request) (string, error)`:
the cookie-only path, with the same `return "", err` on absent-or-empty. -/
def SessionManager.GetSessionIdFromCookie {K V : Type} (sm : SessionManager K V)
    (r : Request) : String × Err :=
  let cookieRes := r.cookie sm.Cookie.Name
  let err : Err :=
    match cookieRes with
    | some _ => none
    | none => some "http: named cookie not present"
  let value := cookieRes.getD ""
  if Option.isSome err ∨ value = "" then
    ("", err)
  else
    QueryUnescape value

/-- `func (sm *SessionManager) SessionRead(r *http.Request) (*Session, error)`:
resolve the identifier; `if err != nil || sid == ""` return `nil, err`;
otherwise return the table entry with nil error, or `nil` with the
"session not found" error.  The `go sm.SessionUpdate(sid)` dispatch under
`AutoRefreshSession` is asynchronous and does not affect the returned pair;
the table it eventually updates is outside this sequential return value. -/
def SessionManager.SessionRead {K V : Type} (sm : SessionManager K V)
    (r : Request) : Option (Session K V) × Err :=
  let res := sm.GetSessionId r
  if Option.isSome res.2 ∨ res.1 = "" then
    (none, res.2)
  else
    match alLookup sm.sessions res.1 with
    | some s => (some s, none)
    | none => (none, some "session not found")

/-- A one-entry registry with `MaxLifetime = 5` nanoseconds, used to
exercise the sweep on concrete data. -/
def cleanerDemo : SessionManager Nat Nat :=
  { sessions := [("a", { sessionId := "a", lastAccessed := 0, sd := [] })]
  , Config :=
      { CleanerInterval := 1
      , MaxLifetime := 5
      , CookieLifetime := 0
      , EnableHttpHeader := false
      , SessionHeader := ""
      , AutoRefreshSession := false }
  , Cookie :=
      { Name := "sessionid"
      , Domain := ""
      , HTTPOnly := true
      , Secure := false
      , Lifetime := 0 } }

/-! ## Unfolding helpers -/

theorem Session.Get_eq {K V : Type} [DecidableEq K] (s : Session K V) (key : K) :
    s.Get key = (alLookup s.sd key).getD none := by
  unfold Session.Get
  cases alLookup s.sd key <;> rfl

theorem Session.Exist_eq {K V : Type} [DecidableEq K] (s : Session K V) (key : K) :
    s.Exist key = (alLookup s.sd key).isSome := by
  unfold Session.Exist
  cases alLookup s.sd key <;> rfl

theorem SessionManager.SessionExist_eq {K V : Type} (sm : SessionManager K V)
    (sid : String) :
    sm.SessionExist sid = (alLookup sm.sessions sid).isSome := by
  unfold SessionManager.SessionExist
  cases alLookup sm.sessions sid <;> rfl

/-! ## The claims -/

/-- C6: for every session and all `key`, `value`: after `Set(key, value)`,
`Get(key)` returns `value` and `Exist(key)` is true — including when the
value is the Go `nil` (`none`), since a key set to a null value still counts
as present; after `Delete(key)`, `Exist(key)` is false; `Get` and `Exist` on
a key never set return `nil` and false; `Delete` of an absent key succeeds
as a no-op; `Set` and `Delete` always return the nil error. -/
theorem session_set_get_exist_delete {K V : Type} [DecidableEq K]
    (s : Session K V) (key : K) (value : Option V) (hwf : s.WF) :
    ((s.Set key value).1).Get key = value ∧
    ((s.Set key value).1).Exist key = true ∧
    (s.Set key value).2 = none ∧
    ((s.Delete key).1).Exist key = false ∧
    (s.Delete key).2 = none ∧
    (alLookup s.sd key = none → s.Get key = none ∧ s.Exist key = false) ∧
    (alLookup s.sd key = none → (s.Delete key).1 = s) := by
  refine ⟨?_, ?_, rfl, ?_, rfl, ?_, ?_⟩
  · rw [Session.Get_eq]
    simp [Session.Set, alLookup_alInsert_self]
  · rw [Session.Exist_eq]
    simp [Session.Set, alLookup_alInsert_self]
  · rw [Session.Exist_eq]
    simp [Session.Delete, alLookup_alErase_self hwf]
  · intro h
    rw [Session.Get_eq, Session.Exist_eq, h]
    exact ⟨rfl, rfl⟩
  · intro h
    simp [Session.Delete, alErase_of_not_mem h]

theorem session_set_get_exist_delete_witness :
    (({ sessionId := "x", lastAccessed := 0, sd := [] } :
        Session Nat Nat).Set 1 (some 2)).1.Get 1 = some 2 :=
  (session_set_get_exist_delete
    ({ sessionId := "x", lastAccessed := 0, sd := [] } : Session Nat Nat)
    1 (some 2) (by decide)).1

/-- C10: after `Set(key, nil)`, `Get(key)` returns Go `nil` — exactly what
`Get` returns for a key that was never set — so `Get` alone cannot separate
a nil-valued key from an absent one; only `Exist` tells them apart (true
after `Set(key, nil)`, false for an absent key). -/
theorem set_nil_get_indistinguishable {K V : Type} [DecidableEq K]
    (s t : Session K V) (key k2 : K) (h : alLookup t.sd k2 = none) :
    ((s.Set key none).1).Get key = none ∧
    t.Get k2 = none ∧
    ((s.Set key none).1).Exist key = true ∧
    t.Exist k2 = false := by
  refine ⟨?_, ?_, ?_, ?_⟩
  · rw [Session.Get_eq]
    simp [Session.Set, alLookup_alInsert_self]
  · rw [Session.Get_eq, h]
    rfl
  · rw [Session.Exist_eq]
    simp [Session.Set, alLookup_alInsert_self]
  · rw [Session.Exist_eq, h]
    rfl

theorem set_nil_get_indistinguishable_witness :
    (({ sessionId := "x", lastAccessed := 0, sd := [] } :
        Session Nat Nat).Set 1 none).1.Get 1 = none :=
  (set_nil_get_indistinguishable
    ({ sessionId := "x", lastAccessed := 0, sd := [] } : Session Nat Nat)
    ({ sessionId := "y", lastAccessed := 0, sd := [] } : Session Nat Nat)
    1 1 (by decide)).1

/-- C1: the claim's second half fails on the code: `SessionCreate("")` does
not reject the empty identifier — it returns the nil error, registers a
fresh empty-data session at key `""`, and `SessionExist("")` is true
afterward, although the repository's own test
(`TestSessionManager_SessionCreate`, "Create Session with Empty ID")
demands a non-nil error. -/
theorem sessionCreate_empty_id_not_rejected :
    ((New Nat Nat).SessionCreate "" 0).2.2 = none ∧
    ((New Nat Nat).SessionCreate "" 0).1.SessionExist "" = true ∧
    ((New Nat Nat).SessionCreate "" 0).2.1 =
      { sessionId := "", lastAccessed := 0, sd := [] } := by
  decide

/-- C7: `SessionDestroy(id)` succeeds and removes the entry exactly when
`id` is registered; destroying an unregistered `id` returns a non-nil error
and leaves the registry unchanged; destroying the same id twice makes the
first call succeed and the second fail. -/
theorem sessionDestroy_spec {K V : Type} (sm : SessionManager K V)
    (sid : String) (hwf : sm.WF) :
    (sm.SessionExist sid = true →
      (sm.SessionDestroy sid).2 = none ∧
      (sm.SessionDestroy sid).1.SessionExist sid = false ∧
      ((sm.SessionDestroy sid).1.SessionDestroy sid).2 ≠ none) ∧
    (sm.SessionExist sid = false →
      (sm.SessionDestroy sid).2 ≠ none ∧
      (sm.SessionDestroy sid).1 = sm) := by
  rw [SessionManager.SessionExist_eq]
  cases h : alLookup sm.sessions sid with
  | some s =>
      refine ⟨fun _ => ?_, fun hfalse => by simp at hfalse⟩
      have herase : alLookup (alErase sm.sessions sid) sid = none :=
        alLookup_alErase_self hwf
      unfold SessionManager.SessionDestroy
      rw [h]
      simp only
      rw [SessionManager.SessionExist_eq]
      simp only [herase]
      simp
  | none =>
      refine ⟨fun htrue => by simp at htrue, fun _ => ?_⟩
      unfold SessionManager.SessionDestroy
      rw [h]
      exact ⟨by simp, rfl⟩

theorem sessionDestroy_spec_witness :
    (((New Nat Nat).SessionCreate "a" 0).1.SessionDestroy "a").2 = none :=
  ((sessionDestroy_spec ((New Nat Nat).SessionCreate "a" 0).1 "a"
    (by decide)).1 (by decide)).1

/-- C9: for a registered `sid`, `SessionUpdate` returns the nil error and
changes only that session's `lastAccessed`: the entry at `sid` keeps its
identifier field and data mapping, every other key maps to the same session
as before, the table's key set is unchanged, and the configuration is
untouched; for an unregistered `sid` it returns a non-nil error and the
whole registry is unchanged. -/
theorem sessionUpdate_frame {K V : Type} (sm : SessionManager K V)
    (sid : String) (now : Int) :
    (∀ s, alLookup sm.sessions sid = some s →
      (sm.SessionUpdate sid now).2 = none ∧
      alLookup (sm.SessionUpdate sid now).1.sessions sid =
        some { s with lastAccessed := now } ∧
      (∀ k, k ≠ sid →
        alLookup (sm.SessionUpdate sid now).1.sessions k =
          alLookup sm.sessions k) ∧
      (∀ k, (alLookup (sm.SessionUpdate sid now).1.sessions k).isSome =
        (alLookup sm.sessions k).isSome) ∧
      (sm.SessionUpdate sid now).1.Config = sm.Config ∧
      (sm.SessionUpdate sid now).1.Cookie = sm.Cookie) ∧
    (alLookup sm.sessions sid = none →
      (sm.SessionUpdate sid now).2 ≠ none ∧
      (sm.SessionUpdate sid now).1 = sm) := by
  constructor
  · intro s h
    have hupd : sm.SessionUpdate sid now =
        ({ sm with
            sessions := alInsert sm.sessions sid { s with lastAccessed := now } },
          none) := by
      unfold SessionManager.SessionUpdate
      rw [h]
    rw [hupd]
    refine ⟨rfl, alLookup_alInsert_self _ _ _, ?_, ?_, rfl, rfl⟩
    · intro k hk
      exact alLookup_alInsert_ne _ _ hk
    · intro k
      by_cases hk : k = sid
      · subst hk
        rw [alLookup_alInsert_self, h]
        rfl
      · rw [alLookup_alInsert_ne _ _ hk]
  · intro h
    have hupd : sm.SessionUpdate sid now =
        (sm, some "error while updating session") := by
      unfold SessionManager.SessionUpdate
      rw [h]
    rw [hupd]
    exact ⟨by simp, rfl⟩

theorem sessionUpdate_frame_witness :
    alLookup ((((New Nat Nat).SessionCreate "a" 0).1.SessionUpdate "a" 7).1.sessions) "a" =
      some { sessionId := "a", lastAccessed := 7, sd := [] } :=
  ((sessionUpdate_frame ((New Nat Nat).SessionCreate "a" 0).1 "a" 7).1
    { sessionId := "a", lastAccessed := 0, sd := [] } (by decide)).2.1

/-- C8: one invocation of the sweep at instant `now` removes exactly the
entries idle longer than `MaxLifetime`: a registered session whose idle
duration `now - lastAccessed` exceeds `MaxLifetime` is absent afterward, and
one whose idle duration is less than `MaxLifetime` is still present with its
record unchanged.  The sweep is a total function with no error result, so it
never errors. -/
theorem globalCleaner_spec {K V : Type} (sm : SessionManager K V)
    (now : Int) (sid : String) (s : Session K V)
    (hwf : sm.WF) (h : alLookup sm.sessions sid = some s) :
    (now - s.lastAccessed > sm.Config.MaxLifetime →
      alLookup (sm.GlobalCleaner now).sessions sid = none) ∧
    (now - s.lastAccessed < sm.Config.MaxLifetime →
      alLookup (sm.GlobalCleaner now).sessions sid = some s) := by
  have hf := alLookup_filter
    (fun kv => ! decide (kv.2.lastAccessed + sm.Config.MaxLifetime < now)) hwf h
  constructor
  · intro hgt
    unfold SessionManager.GlobalCleaner
    simp only
    rw [hf]
    have : (s.lastAccessed + sm.Config.MaxLifetime < now) := by omega
    simp [this]
  · intro hlt
    unfold SessionManager.GlobalCleaner
    simp only
    rw [hf]
    have : ¬ (s.lastAccessed + sm.Config.MaxLifetime < now) := by omega
    simp [this]

theorem globalCleaner_spec_witness :
    alLookup ((cleanerDemo.GlobalCleaner 10).sessions) "a" = none :=
  (globalCleaner_spec cleanerDemo 10 "a"
    { sessionId := "a", lastAccessed := 0, sd := [] }
    (by decide) (by decide)).1 (by decide)

/-- C2 as stated is false on the code: refreshing a registered identifier
onto itself (`oldId = newId`) removes the entry — `SessionExist(newId)` is
false afterward, where the claim requires it to be true. -/
theorem sessionRefresh_same_id_counterexample :
    (((New Nat Nat).SessionCreate "a" 0).1.SessionRefresh "a" "a" 1).1.SessionExist "a"
      = false := by
  decide

/-- C2 (amended): `SessionRefresh(oldId, newId)` never fails.  For every
registered `oldId` and every `newId` distinct from `oldId`: afterward
`SessionExist(oldId)` is false, `SessionExist(newId)` is true, and the
returned session is the surviving record, the old record with its
identifier field set to `newId`.  When `newId = oldId` and `oldId` is
registered, the returned session has identifier `newId` but the entry is
removed from the table (`SessionExist(newId)` is false afterward).  When
`oldId` is not registered, it behaves as `Create(newId)`: a fresh session
with empty data and identifier `newId` is registered at `newId` and
returned. -/
theorem sessionRefresh_amended {K V : Type} (sm : SessionManager K V)
    (oldSid sid : String) (now : Int) (hwf : sm.WF) :
    (sm.SessionRefresh oldSid sid now).2.2 = none ∧
    (∀ s, alLookup sm.sessions oldSid = some s → oldSid ≠ sid →
      (sm.SessionRefresh oldSid sid now).1.SessionExist oldSid = false ∧
      (sm.SessionRefresh oldSid sid now).1.SessionExist sid = true ∧
      (sm.SessionRefresh oldSid sid now).2.1 = { s with sessionId := sid } ∧
      alLookup (sm.SessionRefresh oldSid sid now).1.sessions sid =
        some { s with sessionId := sid }) ∧
    (∀ s, alLookup sm.sessions oldSid = some s → oldSid = sid →
      (sm.SessionRefresh oldSid sid now).1.SessionExist sid = false ∧
      (sm.SessionRefresh oldSid sid now).2.1 = { s with sessionId := sid }) ∧
    (alLookup sm.sessions oldSid = none →
      (sm.SessionRefresh oldSid sid now).2.1 =
        { sessionId := sid, lastAccessed := now, sd := [] } ∧
      alLookup (sm.SessionRefresh oldSid sid now).1.sessions sid =
        some { sessionId := sid, lastAccessed := now, sd := [] }) := by
  refine ⟨?_, ?_, ?_, ?_⟩
  · cases h : alLookup sm.sessions oldSid <;>
      simp [SessionManager.SessionRefresh, h]
  · intro s h hne
    have hr : sm.SessionRefresh oldSid sid now =
        ({ sm with
            sessions :=
              alErase (alInsert sm.sessions sid { s with sessionId := sid })
                oldSid },
          { s with sessionId := sid }, none) := by
      unfold SessionManager.SessionRefresh
      rw [h]
    have hins :
        (alKeys (alInsert sm.sessions sid { s with sessionId := sid })).Nodup :=
      alKeys_alInsert_nodup hwf
    rw [hr]
    refine ⟨?_, ?_, rfl, ?_⟩
    · rw [SessionManager.SessionExist_eq]
      show (alLookup
        (alErase (alInsert sm.sessions sid { s with sessionId := sid }) oldSid)
        oldSid).isSome = false
      rw [alLookup_alErase_self hins]
      rfl
    · rw [SessionManager.SessionExist_eq]
      show (alLookup
        (alErase (alInsert sm.sessions sid { s with sessionId := sid }) oldSid)
        sid).isSome = true
      rw [alLookup_alErase_ne _ (Ne.symm hne), alLookup_alInsert_self]
      rfl
    · show alLookup
        (alErase (alInsert sm.sessions sid { s with sessionId := sid }) oldSid)
        sid = some { s with sessionId := sid }
      rw [alLookup_alErase_ne _ (Ne.symm hne), alLookup_alInsert_self]
  · intro s h heq
    have hr : sm.SessionRefresh oldSid sid now =
        ({ sm with
            sessions :=
              alErase (alInsert sm.sessions sid { s with sessionId := sid })
                oldSid },
          { s with sessionId := sid }, none) := by
      unfold SessionManager.SessionRefresh
      rw [h]
    have hins :
        (alKeys (alInsert sm.sessions sid { s with sessionId := sid })).Nodup :=
      alKeys_alInsert_nodup hwf
    rw [hr]
    refine ⟨?_, rfl⟩
    rw [SessionManager.SessionExist_eq]
    show (alLookup
      (alErase (alInsert sm.sessions sid { s with sessionId := sid }) oldSid)
      sid).isSome = false
    rw [heq, alLookup_alErase_self hins]
    rfl
  · intro h
    have hr : sm.SessionRefresh oldSid sid now =
        ({ sm with
            sessions :=
              alInsert sm.sessions sid
                { sessionId := sid, lastAccessed := now, sd := [] } },
          { sessionId := sid, lastAccessed := now, sd := [] }, none) := by
      unfold SessionManager.SessionRefresh
      rw [h]
    rw [hr]
    exact ⟨rfl, alLookup_alInsert_self _ _ _⟩

theorem sessionRefresh_amended_witness :
    (((New Nat Nat).SessionCreate "a" 0).1.SessionRefresh "a" "b" 5).1.SessionExist "b"
      = true :=
  (((sessionRefresh_amended ((New Nat Nat).SessionCreate "a" 0).1 "a" "b" 5
    (by decide)).2.1) { sessionId := "a", lastAccessed := 0, sd := [] }
    (by decide) (by decide)).2.1

/-- C5: the claim fails on the code in the empty-value case.
`GetSessionIdFromCookie` does fail (non-nil error) when the cookie is
absent or its value fails to unescape, and succeeds on a good value — but
when the designated cookie is present with an EMPTY value it returns the
empty identifier together with the NIL error, because `return "", err`
propagates the nil error of the successful `r.Cookie` call.  The
repository's own test (`TestSessionManager_GetSessionIdFromCookie`,
case "Empty Cookie Value") demands a non-nil error there. -/
theorem getSessionIdFromCookie_empty_value_no_error :
    (New Nat Nat).GetSessionIdFromCookie
      { cookies := [("sessionid", "")], header := [] } = ("", none) ∧
    (New Nat Nat).GetSessionIdFromCookie
      { cookies := [], header := [] } =
        ("", some "http: named cookie not present") ∧
    (New Nat Nat).GetSessionIdFromCookie
      { cookies := [("sessionid", "%")], header := [] } =
        ("", some "invalid URL escape") ∧
    (New Nat Nat).GetSessionIdFromCookie
      { cookies := [("sessionid", "abc%41")], header := [] } =
        ("abcA", none) := by
  decide

/-- C3 as stated is false on the code at this input: the designated cookie
is present with an empty value and header extraction is disabled, so
neither source yields a value, yet `GetSessionId` returns the empty
identifier with the NIL error instead of failing. -/
theorem getSessionId_no_source_nil_error_counterexample :
    (New Nat Nat).GetSessionId
      { cookies := [("sessionid", "")], header := [] } = ("", none) := by
  decide

/-- C3 (amended): for every request: a present, non-empty cookie value that
URL-unescapes resolves to the unescaped value (header ignored); a present,
non-empty cookie value that fails to unescape is a hard failure with the
escape error, never falling through to the header; the first value of the
designated header is returned only when the cookie is absent or
empty-valued and header extraction is enabled; and when neither source
yields a value the operation returns the empty identifier with the
cookie-lookup error — non-nil when the cookie was absent, but NIL when the
cookie was present with an empty value. -/
theorem getSessionId_precedence_amended {K V : Type} (sm : SessionManager K V)
    (r : Request) :
    (∀ v u, r.cookie sm.Cookie.Name = some v → v ≠ "" →
      unescapeChars v.toList = some u →
      sm.GetSessionId r = (String.mk u, none)) ∧
    (∀ v, r.cookie sm.Cookie.Name = some v → v ≠ "" →
      unescapeChars v.toList = none →
      sm.GetSessionId r = ("", some "invalid URL escape")) ∧
    (∀ sids,
      (r.cookie sm.Cookie.Name = none ∨ r.cookie sm.Cookie.Name = some "") →
      sm.Config.EnableHttpHeader = true →
      r.headerValues sm.Config.SessionHeader = some sids → sids ≠ [] →
      sm.GetSessionId r = (sids.headD "", none)) ∧
    ((sm.Config.EnableHttpHeader = false ∨
        r.headerValues sm.Config.SessionHeader = none ∨
        r.headerValues sm.Config.SessionHeader = some []) →
      (r.cookie sm.Cookie.Name = none →
        sm.GetSessionId r = ("", some "http: named cookie not present")) ∧
      (r.cookie sm.Cookie.Name = some "" →
        sm.GetSessionId r = ("", none))) := by
  refine ⟨?_, ?_, ?_, ?_⟩
  · intro v u hc hv hu
    have hu2 : unescapeChars v.data = some u := hu
    unfold SessionManager.GetSessionId
    rw [hc]
    simp [hv, QueryUnescape, hu2]
  · intro v hc hv hu
    have hu2 : unescapeChars v.data = none := hu
    unfold SessionManager.GetSessionId
    rw [hc]
    simp [hv, QueryUnescape, hu2]
  · intro sids hc hh hs hne
    unfold SessionManager.GetSessionId
    rcases hc with hc | hc <;> rw [hc] <;> simp [hh, hs, hne]
  · intro hh
    constructor <;> intro hc <;> unfold SessionManager.GetSessionId <;>
      rw [hc] <;> rcases hh with hh | hh | hh <;> simp [hh]

theorem getSessionId_precedence_amended_witness :
    (New Nat Nat).GetSessionId
      { cookies := [("sessionid", "abc%41")], header := [] } =
      ("abcA", none) :=
  ((getSessionId_precedence_amended (New Nat Nat)
      { cookies := [("sessionid", "abc%41")], header := [] }).1
    "abc%41" "abcA".toList (by decide) (by decide) (by decide))

/-- C4 as stated is false on the code at this input: a request whose
designated cookie is present with an empty value makes `GetSessionId`
return `("", nil)`, and `SessionRead` then returns a nil session AND a nil
error — neither a session nor an error. -/
theorem sessionRead_neither_counterexample :
    (New Nat Nat).SessionRead
      { cookies := [("sessionid", "")], header := [] } = (none, none) := by
  decide

/-- C4 (amended): `SessionRead` fails with the resolution error when
identifier resolution fails with a non-nil error; when resolution returns
an empty identifier with a nil error (a present, empty-valued cookie with
no header fallback) it returns neither a session nor an error — both nil;
otherwise it fails with the "session not found" error when the resolved
identifier is unregistered, and returns the registered session with nil
error on success. -/
theorem sessionRead_amended {K V : Type} (sm : SessionManager K V)
    (r : Request) :
    ((sm.GetSessionId r).2 ≠ none →
      sm.SessionRead r = (none, (sm.GetSessionId r).2)) ∧
    ((sm.GetSessionId r).2 = none → (sm.GetSessionId r).1 = "" →
      sm.SessionRead r = (none, none)) ∧
    ((sm.GetSessionId r).2 = none → (sm.GetSessionId r).1 ≠ "" →
      (alLookup sm.sessions (sm.GetSessionId r).1 = none →
        sm.SessionRead r = (none, some "session not found")) ∧
      (∀ s, alLookup sm.sessions (sm.GetSessionId r).1 = some s →
        sm.SessionRead r = (some s, none))) := by
  unfold SessionManager.SessionRead
  refine ⟨?_, ?_, ?_⟩
  · intro herr
    have hs : Option.isSome (sm.GetSessionId r).2 = true :=
      Option.isSome_iff_ne_none.mpr herr
    rw [if_pos (Or.inl hs)]
  · intro herr hempty
    rw [if_pos (Or.inr hempty), herr]
  · intro herr hne
    have hcond : ¬ (Option.isSome (sm.GetSessionId r).2 = true ∨
        (sm.GetSessionId r).1 = "") := by
      rw [herr]
      simp [hne]
    rw [if_neg hcond]
    constructor
    · intro hlook
      rw [hlook]
    · intro s hlook
      rw [hlook]

theorem sessionRead_amended_witness :
    ((New Nat Nat).SessionCreate "abc" 0).1.SessionRead
      { cookies := [("sessionid", "abc")], header := [] } =
      (some { sessionId := "abc", lastAccessed := 0, sd := [] }, none) :=
  ((sessionRead_amended ((New Nat Nat).SessionCreate "abc" 0).1
      { cookies := [("sessionid", "abc")], header := [] }).2.2
    (by decide) (by decide)).2
    { sessionId := "abc", lastAccessed := 0, sd := [] } (by decide)
